import Mathlib

/-!
Verification of the token-bucket rate limiter (`src/exe.cpp`).

Shallow embedding conventions:
* `double` token levels, refill rates and timestamps are modelled as `ℚ`
  (exact arithmetic; the source algorithms are arithmetic on reals).
* `std::chrono::steady_clock::now()` is an external input, so every
  operation that reads the clock takes an explicit `now : ℚ` parameter.
* `std::unordered_map` (unique keys) is modelled as an association list;
  `operator[]` insertion of an absent key is a cons, assignment of a
  present key is an in-place overwrite, `erase` removes the key.
* `std::atomic` counters are plain naturals: the claims under study are
  about sequential state transitions, each C++ operation holds the
  relevant mutex for its whole body.
* `size_t` counters are `ℕ`; `static_cast<size_t>(double)` on a
  non-negative value is `Rat.floor` followed by `Int.toNat`.
-/

/- Batteries marks the arithmetic on `Rat` `@[irreducible]`, which blocks
`decide` from evaluating concrete program states; restore the default
transparency for this development so that witnesses and counterexamples
can be checked by evaluation. -/
attribute [local semireducible] Rat.add Rat.sub Rat.mul Rat.inv

namespace RateLimiterModel

/-- `ClientStatistics` (src/exe.cpp lines 62-73): the per-client snapshot
returned by `TokenBucket::getStatistics` / `RateLimiter::getClientStatistics`. -/
structure ClientStatistics where
  tokensRemaining : ℕ
  bucketSize : ℕ
  refillRate : ℚ
  totalRequests : ℕ
  acceptedRequests : ℕ
  lastRefill : ℚ
  deriving Repr, DecidableEq

/-- `TokenBucket` (src/exe.cpp lines 76-149): one client's token state and
local usage counters (the spec's Quota Cell). -/
structure TokenBucket where
  tokens : ℚ
  bucketSize : ℕ
  refillRate : ℚ
  lastRefill : ℚ
  totalRequests : ℕ
  acceptedRequests : ℕ
  deriving Repr, DecidableEq

/-- `TokenBucket::TokenBucket(bucketSize, refillRate)` (lines 89-92):
starts full, with `lastRefill_ = now` and both counters zero. -/
def mkTokenBucket (bucketSize : ℕ) (refillRate : ℚ) (now : ℚ) : TokenBucket :=
  { tokens := bucketSize
    bucketSize := bucketSize
    refillRate := refillRate
    lastRefill := now
    totalRequests := 0
    acceptedRequests := 0 }

namespace TokenBucket

/-- `TokenBucket::refillTokens` (lines 139-148): if time passed since the
last refill is positive, add `timePassed * refillRate_`, clamp to
`bucketSize_` and advance `lastRefill_`; otherwise do nothing. -/
def refillTokens (now : ℚ) (b : TokenBucket) : TokenBucket :=
  let timePassed := now - b.lastRefill
  if 0 < timePassed then
    { b with
        tokens := min (b.tokens + timePassed * b.refillRate) (b.bucketSize : ℚ)
        lastRefill := now }
  else
    b

/-- `TokenBucket::consume(tokensNeeded)` (lines 94-107): refill, count the
request, then accept iff `tokens_ >= tokensNeeded`. -/
def consume (b : TokenBucket) (tokensNeeded : ℕ) (now : ℚ) : Bool × TokenBucket :=
  let b1 := refillTokens now b
  let b2 := { b1 with totalRequests := b1.totalRequests + 1 }
  if (tokensNeeded : ℚ) ≤ b2.tokens then
    (true, { b2 with
               tokens := b2.tokens - (tokensNeeded : ℚ)
               acceptedRequests := b2.acceptedRequests + 1 })
  else
    (false, b2)

/-- `TokenBucket::getStatistics` (lines 109-123): forces a refill pass
(through `const_cast`) and returns the snapshot; `tokens_` is truncated by
`static_cast<size_t>`. -/
def getStatistics (b : TokenBucket) (now : ℚ) : ClientStatistics × TokenBucket :=
  let b1 := refillTokens now b
  ({ tokensRemaining := b1.tokens.floor.toNat
     bucketSize := b1.bucketSize
     refillRate := b1.refillRate
     totalRequests := b1.totalRequests
     acceptedRequests := b1.acceptedRequests
     lastRefill := b1.lastRefill }, b1)

/-- `TokenBucket::reset` (lines 125-131). -/
def reset (b : TokenBucket) (now : ℚ) : TokenBucket :=
  { b with
      tokens := (b.bucketSize : ℚ)
      lastRefill := now
      totalRequests := 0
      acceptedRequests := 0 }

/-- The Quota Cell data-model invariant `0 ≤ tokens ≤ capacity`. -/
def Inv (b : TokenBucket) : Prop :=
  0 ≤ b.tokens ∧ b.tokens ≤ (b.bucketSize : ℚ)

instance (b : TokenBucket) : Decidable b.Inv := by
  unfold Inv; infer_instance

end TokenBucket

/-- Applies `consume 1` to a bucket `k` times at a fixed instant `now`,
keeping only the final bucket state. -/
def consumeIter (now : ℚ) : ℕ → TokenBucket → TokenBucket
  | 0, b => b
  | k + 1, b => (consumeIter now k b |>.consume 1 now).2

/-! ### Association lists

`std::unordered_map` with unique keys. `lookupKey` is `find`, `eraseKey`
is `erase`, `setKey` is `operator[] =` (overwrite if present, insert if
absent), and creation of a key known to be absent is a cons. -/

/-- `map.find(k)` on an association list. -/
def lookupKey (cid : String) : List (String × α) → Option α
  | [] => none
  | (k, v) :: rest => if k = cid then some v else lookupKey cid rest

/-- `map.erase(k)`: drop every entry with the given key (a map holds at
most one). -/
def eraseKey (cid : String) : List (String × α) → List (String × α)
  | [] => []
  | (k, v) :: rest => if k = cid then eraseKey cid rest else (k, v) :: eraseKey cid rest

/-- `map[k] = v`: overwrite the entry if present, append it otherwise. -/
def setKey (cid : String) (v : α) : List (String × α) → List (String × α)
  | [] => [(cid, v)]
  | (k, w) :: rest => if k = cid then (cid, v) :: rest else (k, w) :: setKey cid v rest

/-! ### The rate limiter -/

/-- `RateLimiterConfig` (src/exe.cpp lines 25-36). `timeoutMs` is carried
but never read by any modelled operation, matching the source. -/
structure RateLimiterConfig where
  defaultBucketSize : ℕ
  defaultRefillRate : ℚ
  cleanupInterval : ℚ
  enableMetrics : Bool
  enableLogging : Bool
  maxClients : ℕ
  timeoutMs : ℚ
  clientLimits : List (String × (ℕ × ℚ))
  deriving Repr, DecidableEq

/-- The value view of `Statistics` (lines 39-60); the atomics are read as
plain values. -/
structure Statistics where
  totalRequests : ℕ
  acceptedRequests : ℕ
  rejectedRequests : ℕ
  totalLatency : ℚ
  activeClients : ℕ
  deriving Repr, DecidableEq

/-- `RateLimiter` (lines 152-420): registry, configuration, aggregate
statistics and the bounded latency sample buffer. The cleanup thread and
mutexes have no state beyond what is here. -/
structure RateLimiter where
  clients : List (String × TokenBucket)
  config : RateLimiterConfig
  statsTotalRequests : ℕ
  statsAcceptedRequests : ℕ
  statsRejectedRequests : ℕ
  statsTotalLatency : ℚ
  statsActiveClients : ℕ
  latencyMeasurements : List ℚ
  deriving Repr, DecidableEq

/-- `RateLimiter::RateLimiter(config)` (lines 168-171): stores the given
configuration unchanged — the constructor performs no validation — and
starts the cleanup thread (no observable state). -/
def mkRateLimiter (config : RateLimiterConfig) : RateLimiter :=
  { clients := []
    config := config
    statsTotalRequests := 0
    statsAcceptedRequests := 0
    statsRejectedRequests := 0
    statsTotalLatency := 0
    statsActiveClients := 0
    latencyMeasurements := [] }

namespace RateLimiter

/-- `RateLimiter::getOrCreateBucket` (lines 359-389): return the existing
bucket, refuse (`nullptr`) when the registry is at `maxClients`, otherwise
create a bucket from the override table or the defaults, insert it and
increment `activeClients`. -/
def getOrCreateBucket (rl : RateLimiter) (cid : String) (now : ℚ) :
    Option TokenBucket × RateLimiter :=
  match lookupKey cid rl.clients with
  | some b => (some b, rl)
  | none =>
    if rl.config.maxClients ≤ rl.clients.length then
      (none, rl)
    else
      let limits : ℕ × ℚ :=
        match lookupKey cid rl.config.clientLimits with
        | some pr => pr
        | none => (rl.config.defaultBucketSize, rl.config.defaultRefillRate)
      let b := mkTokenBucket limits.1 limits.2 now
      (some b,
        { rl with
            clients := (cid, b) :: rl.clients
            statsActiveClients := rl.statsActiveClients + 1 })

/-- Writes back the mutation that C++ performs through the `TokenBucket*`
returned by `getOrCreateBucket`. -/
def writeBucket (rl : RateLimiter) (cid : String) (b : TokenBucket) : RateLimiter :=
  { rl with clients := rl.clients.map (fun p => if p.1 = cid then (cid, b) else p) }

/-- `RateLimiter::allowRequestInternal` (lines 354-357):
`bucket ? bucket->consume() : false`. -/
def allowRequestInternal (rl : RateLimiter) (cid : String) (now : ℚ) :
    Bool × RateLimiter :=
  match getOrCreateBucket rl cid now with
  | (none, rl1) => (false, rl1)
  | (some b, rl1) =>
    let (ok, b1) := b.consume 1 now
    (ok, writeBucket rl1 cid b1)

/-- The latency-buffer update in `allowRequest` (lines 201-208):
`push_back`, then drop the oldest sample while more than 1000 remain. -/
def pushLatency (xs : List ℚ) (lat : ℚ) : List ℚ :=
  let ys := xs ++ [lat]
  if 1000 < ys.length then ys.drop 1 else ys

/-- `RateLimiter::allowRequest` (lines 183-220): the verdict comes from
`allowRequestInternal`; when metrics are enabled the aggregate counters,
the latency buffer and the total latency are updated. The measured wall
time is an external input `lat`. Logging writes no state. -/
def allowRequest (rl : RateLimiter) (cid : String) (now lat : ℚ) :
    Bool × RateLimiter :=
  let (allowed, rl1) := allowRequestInternal rl cid now
  if rl1.config.enableMetrics then
    (allowed,
      { rl1 with
          statsTotalRequests := rl1.statsTotalRequests + 1
          statsAcceptedRequests := rl1.statsAcceptedRequests + (if allowed then 1 else 0)
          statsRejectedRequests := rl1.statsRejectedRequests + (if allowed then 0 else 1)
          latencyMeasurements := pushLatency rl1.latencyMeasurements lat
          statsTotalLatency := rl1.statsTotalLatency + lat })
  else
    (allowed, rl1)

/-- `RateLimiter::updateClientLimit` (lines 227-233): store the override,
then erase any existing bucket; `activeClients` is not touched. -/
def updateClientLimit (rl : RateLimiter) (cid : String) (bucketSize : ℕ)
    (refillRate : ℚ) : RateLimiter :=
  { rl with
      config := { rl.config with
                    clientLimits := setKey cid (bucketSize, refillRate) rl.config.clientLimits }
      clients := eraseKey cid rl.clients }

/-- `RateLimiter::removeClient` (lines 235-240): erase the entry and, when
one was actually removed, decrement `activeClients`. -/
def removeClient (rl : RateLimiter) (cid : String) : RateLimiter :=
  match lookupKey cid rl.clients with
  | some _ =>
    { rl with
        clients := eraseKey cid rl.clients
        statsActiveClients := rl.statsActiveClients - 1 }
  | none => rl

/-- `RateLimiter::getStatistics` (lines 242-244): the aggregate counters. -/
def getStatistics (rl : RateLimiter) : Statistics :=
  { totalRequests := rl.statsTotalRequests
    acceptedRequests := rl.statsAcceptedRequests
    rejectedRequests := rl.statsRejectedRequests
    totalLatency := rl.statsTotalLatency
    activeClients := rl.statsActiveClients }

/-- `RateLimiter::getClientStatistics` (lines 246-256): the registered
cell's snapshot (whose refill pass mutates the cell through `const_cast`),
or a default view for an unknown client. -/
def getClientStatistics (rl : RateLimiter) (cid : String) (now : ℚ) :
    ClientStatistics × RateLimiter :=
  match lookupKey cid rl.clients with
  | some b =>
    let (st, b1) := b.getStatistics now
    (st, writeBucket rl cid b1)
  | none =>
    ({ tokensRemaining := 0
       bucketSize := rl.config.defaultBucketSize
       refillRate := rl.config.defaultRefillRate
       totalRequests := 0
       acceptedRequests := 0
       lastRefill := now }, rl)

/-- The percentile rank of `getLatencyPercentiles` (line 281):
`static_cast<size_t>((percentile / 100.0) * (measurements.size() - 1))`. -/
def rankOf (percentile : ℚ) (count : ℕ) : ℕ :=
  ((percentile / 100) * ((count : ℚ) - 1)).floor.toNat

/-- `RateLimiter::getLatencyPercentiles` (lines 270-292): five zeros on an
empty buffer; otherwise sort a copy ascending and pick the elements at the
nearest ranks for P50, P90, P95, P99, P99.9. The buffer itself is read
only (the function is `const` and works on a copy), so the embedding is a
pure function of the state. -/
def getLatencyPercentiles (rl : RateLimiter) : List ℚ :=
  if rl.latencyMeasurements.isEmpty then
    [0, 0, 0, 0, 0]
  else
    let s := rl.latencyMeasurements.insertionSort (· ≤ ·)
    let n := rl.latencyMeasurements.length
    [s.getD (rankOf 50 n) 0, s.getD (rankOf 90 n) 0, s.getD (rankOf 95 n) 0,
     s.getD (rankOf 99 n) 0, s.getD (rankOf (999 / 10) n) 0]

/-- `RateLimiter::reset` (lines 310-328): reset every registered cell,
zero the three request counters and the total latency, clear the latency
buffer. `activeClients`, the registry keys and the configuration (hence
the override table) are untouched. -/
def reset (rl : RateLimiter) (now : ℚ) : RateLimiter :=
  { rl with
      clients := rl.clients.map (fun p => (p.1, p.2.reset now))
      statsTotalRequests := 0
      statsAcceptedRequests := 0
      statsRejectedRequests := 0
      statsTotalLatency := 0
      latencyMeasurements := [] }

end RateLimiter

/-! ### Helper lemmas -/

theorem refillTokens_skip (b : TokenBucket) (now : ℚ) (h : now - b.lastRefill ≤ 0) :
    TokenBucket.refillTokens now b = b := by
  unfold TokenBucket.refillTokens
  simp only [if_neg (not_lt.mpr h)]

theorem refillTokens_inv (b : TokenBucket) (now : ℚ) (hInv : b.Inv)
    (hr : 0 ≤ b.refillRate) : (TokenBucket.refillTokens now b).Inv := by
  obtain ⟨h0, hc⟩ := hInv
  unfold TokenBucket.refillTokens TokenBucket.Inv
  dsimp only
  split
  · rename_i h
    refine ⟨le_min ?_ (by positivity), min_le_right _ _⟩
    exact add_nonneg h0 (mul_nonneg h.le hr)
  · exact ⟨h0, hc⟩

theorem consumeIter_rate0 (C : ℕ) (now : ℚ) (k : ℕ) (hk : k ≤ C) :
    consumeIter now k (mkTokenBucket C 0 now) =
      { tokens := (C : ℚ) - k, bucketSize := C, refillRate := 0, lastRefill := now,
        totalRequests := k, acceptedRequests := k } := by
  induction k with
  | zero => simp [consumeIter, mkTokenBucket]
  | succ k ih =>
    have hk' : k ≤ C := Nat.le_of_succ_le hk
    have hlt : (1 : ℚ) ≤ (C : ℚ) - k := by
      have : (k : ℚ) + 1 ≤ (C : ℚ) := by exact_mod_cast hk
      linarith
    unfold consumeIter
    rw [ih hk']
    unfold TokenBucket.consume
    rw [refillTokens_skip _ _ (by simp)]
    simp only [Nat.cast_one, if_pos hlt]
    have : (C : ℚ) - k - 1 = (C : ℚ) - (k + 1 : ℕ) := by push_cast; ring
    simp [this]

/-! ### Claim theorems -/

/-- C1: `consume(n)` first runs the replenishment pass, then increments
`totalRequests` by exactly 1; if the (replenished) token level is at least
`n` it subtracts `n`, increments `acceptedRequests` and accepts, otherwise
it rejects leaving the tokens unchanged. Consequently a bucket with
capacity `C` and refill rate 0 accepts `C` immediate `consume(1)` calls
and rejects the `(C+1)`-th. -/
theorem consume_spec :
    (∀ (b : TokenBucket) (n : ℕ) (now : ℚ),
      (b.consume n now).2.totalRequests = (TokenBucket.refillTokens now b).totalRequests + 1 ∧
      ((n : ℚ) ≤ (TokenBucket.refillTokens now b).tokens →
        (b.consume n now).1 = true ∧
        (b.consume n now).2.tokens = (TokenBucket.refillTokens now b).tokens - n ∧
        (b.consume n now).2.acceptedRequests =
          (TokenBucket.refillTokens now b).acceptedRequests + 1) ∧
      (¬ (n : ℚ) ≤ (TokenBucket.refillTokens now b).tokens →
        (b.consume n now).1 = false ∧
        (b.consume n now).2.tokens = (TokenBucket.refillTokens now b).tokens ∧
        (b.consume n now).2.acceptedRequests =
          (TokenBucket.refillTokens now b).acceptedRequests)) ∧
    (∀ (C : ℕ) (now : ℚ) (k : ℕ), k < C →
      ((consumeIter now k (mkTokenBucket C 0 now)).consume 1 now).1 = true) ∧
    (∀ (C : ℕ) (now : ℚ),
      ((consumeIter now C (mkTokenBucket C 0 now)).consume 1 now).1 = false) := by
  refine ⟨?_, ?_, ?_⟩
  · intro b n now
    unfold TokenBucket.consume
    dsimp only
    refine ⟨?_, ?_, ?_⟩
    · split <;> simp
    · intro h
      split
      · simp
      · simp_all
    · intro h
      split
      · simp_all
      · simp
  · intro C now k hk
    rw [consumeIter_rate0 C now k hk.le]
    have h1 : (1 : ℚ) ≤ (C : ℚ) - k := by
      have : (k : ℚ) + 1 ≤ (C : ℚ) := by exact_mod_cast hk
      linarith
    unfold TokenBucket.consume
    rw [refillTokens_skip _ _ (by simp)]
    simp [h1]
  · intro C now
    rw [consumeIter_rate0 C now C le_rfl]
    unfold TokenBucket.consume
    rw [refillTokens_skip _ _ (by simp)]
    norm_num

/-- Witness for C1 at capacity 3, rate 0: the third call is accepted, the
fourth rejected. -/
theorem consume_spec_witness :
    ((consumeIter 0 2 (mkTokenBucket 3 0 0)).consume 1 0).1 = true ∧
    ((consumeIter 0 3 (mkTokenBucket 3 0 0)).consume 1 0).1 = false :=
  ⟨consume_spec.2.1 3 0 2 (by decide), consume_spec.2.2 3 0⟩

/-- C2: a Quota Cell satisfying `0 ≤ tokens ≤ capacity` (with a
non-negative refill rate, as the data model fixes at creation) still
satisfies it after `consume`, after the snapshot `getStatistics`, and
after `reset`; and when the elapsed time is not positive the
replenishment pass leaves the cell exactly unchanged — tokens are never
subtracted for negative elapsed time. -/
theorem tokenBucket_inv (b : TokenBucket) (now : ℚ) (n : ℕ)
    (hInv : b.Inv) (hr : 0 ≤ b.refillRate) :
    ((b.consume n now).2).Inv ∧ ((b.getStatistics now).2).Inv ∧ (b.reset now).Inv ∧
    (now - b.lastRefill ≤ 0 → TokenBucket.refillTokens now b = b) := by
  have href := refillTokens_inv b now hInv hr
  refine ⟨?_, ?_, ?_, refillTokens_skip b now⟩
  · obtain ⟨h0, hc⟩ := href
    unfold TokenBucket.consume
    dsimp only
    split
    · rename_i h
      have hn : (0 : ℚ) ≤ (n : ℚ) := Nat.cast_nonneg n
      refine ⟨?_, ?_⟩
      · simpa using sub_nonneg.mpr h
      · simp only [TokenBucket.Inv]
        linarith
    · exact ⟨h0, hc⟩
  · exact href
  · exact ⟨by simp [TokenBucket.reset], by simp [TokenBucket.reset]⟩

/-- Witness for C2 on a concrete cell: capacity 5, rate 1, a consume of 2
tokens at time 2. -/
theorem tokenBucket_inv_witness :
    (((mkTokenBucket 5 1 0).consume 2 2).2).Inv ∧
    ((mkTokenBucket 5 1 0).reset 2).Inv := by
  have h := tokenBucket_inv (mkTokenBucket 5 1 0) 2 2 (by decide) (by decide)
  exact ⟨h.1, h.2.2.1⟩

/-! ### Concrete fixtures used by witnesses and counterexamples -/

/-- A small configuration: capacity 3, rate 0, at most one client. -/
def testConfig : RateLimiterConfig :=
  { defaultBucketSize := 3
    defaultRefillRate := 0
    cleanupInterval := 300
    enableMetrics := true
    enableLogging := false
    maxClients := 1
    timeoutMs := 1
    clientLimits := [] }

/-- The limiter after one accepted request from client `a`: the registry
holds exactly one entry (so it is at `maxClients = 1` capacity) and
`activeClients = 1`. -/
def rlOne : RateLimiter :=
  ((mkRateLimiter testConfig).allowRequest "a" 0 1).2

/-- C3: an existing entry is returned regardless of the cap; when the
registry already holds `maxClients` entries a lookup miss refuses —
`nullptr`, no cell created, no other entry evicted (the whole state is
unchanged) — and `getOrCreateBucket` never grows the registry beyond
`maxClients`. -/
theorem getOrCreateBucket_cap (rl : RateLimiter) (cid : String) (now : ℚ) :
    (lookupKey cid rl.clients = none → rl.config.maxClients ≤ rl.clients.length →
      rl.getOrCreateBucket cid now = (none, rl)) ∧
    (∀ b, lookupKey cid rl.clients = some b →
      rl.getOrCreateBucket cid now = (some b, rl)) ∧
    (rl.clients.length ≤ rl.config.maxClients →
      (rl.getOrCreateBucket cid now).2.clients.length ≤ rl.config.maxClients) := by
  refine ⟨?_, ?_, ?_⟩
  · intro hnone hfull
    unfold RateLimiter.getOrCreateBucket
    rw [hnone]
    simp [hfull]
  · intro b hb
    unfold RateLimiter.getOrCreateBucket
    rw [hb]
  · intro hle
    unfold RateLimiter.getOrCreateBucket
    cases hb : lookupKey cid rl.clients with
    | some b => exact hle
    | none =>
      dsimp only
      split
      · exact hle
      · rename_i hlt
        simpa using Nat.succ_le_of_lt (lt_of_not_le hlt)

/-- Witness for C3 on `rlOne` (registry full at `maxClients = 1`): a
lookup miss for client `b` is refused and the state is unchanged, while
client `a` gets its registered bucket back. -/
theorem getOrCreateBucket_cap_witness :
    rlOne.getOrCreateBucket "b" 2 = (none, rlOne) ∧
    (rlOne.getOrCreateBucket "b" 2).2.clients.length ≤ rlOne.config.maxClients :=
  ⟨(getOrCreateBucket_cap rlOne "b" 2).1 (by decide) (by decide),
   (getOrCreateBucket_cap rlOne "b" 2).2.2 (by decide)⟩

/-- C4: `allowRequest` returns `false` precisely on the two conflated
paths — `getOrCreateBucket` refused (`nullptr`), which happens exactly
for a lookup miss with the registry at `maxClients`, or the bucket's
`consume(1)` rejected; whenever a bucket is obtained the verdict is
exactly the verdict of `consume(1)`, so the two `false` cases are
indistinguishable in the returned `Bool`. -/
theorem allowRequest_verdict (rl : RateLimiter) (cid : String) (now lat : ℚ) :
    ((rl.getOrCreateBucket cid now).1 = none → (rl.allowRequest cid now lat).1 = false) ∧
    (∀ b, (rl.getOrCreateBucket cid now).1 = some b →
      (rl.allowRequest cid now lat).1 = (b.consume 1 now).1) ∧
    ((rl.getOrCreateBucket cid now).1 = none ↔
      lookupKey cid rl.clients = none ∧ rl.config.maxClients ≤ rl.clients.length) := by
  have hfst : (rl.allowRequest cid now lat).1 = (rl.allowRequestInternal cid now).1 := by
    unfold RateLimiter.allowRequest
    cases h : rl.allowRequestInternal cid now with
    | mk allowed rl1 =>
      dsimp only
      split <;> rfl
  refine ⟨?_, ?_, ?_⟩
  · intro hnone
    rw [hfst]
    unfold RateLimiter.allowRequestInternal
    cases hg : rl.getOrCreateBucket cid now with
    | mk ob rl1 =>
      rw [hg] at hnone
      cases ob with
      | none => rfl
      | some b => simp at hnone
  · intro b hb
    rw [hfst]
    unfold RateLimiter.allowRequestInternal
    cases hg : rl.getOrCreateBucket cid now with
    | mk ob rl1 =>
      rw [hg] at hb
      cases ob with
      | none => simp at hb
      | some b0 =>
        simp only [Option.some.injEq] at hb
        subst hb
        dsimp only
  · unfold RateLimiter.getOrCreateBucket
    cases hb : lookupKey cid rl.clients with
    | some b => simp
    | none =>
      dsimp only
      split
      · rename_i hfull
        simp [hfull]
      · rename_i hlt
        simp [hlt]

/-- Witness for C4 on `rlOne`: the registry is full, so a request from
the new client `b` is refused and reported as an ordinary `false`. -/
theorem allowRequest_verdict_witness :
    (rlOne.allowRequest "b" 2 1).1 = false ∧
    (rlOne.getOrCreateBucket "b" 2).1 = none :=
  ⟨(allowRequest_verdict rlOne "b" 2 1).1
     ((allowRequest_verdict rlOne "b" 2 1).2.2.mpr ⟨by decide, by decide⟩),
   (allowRequest_verdict rlOne "b" 2 1).2.2.mpr ⟨by decide, by decide⟩⟩

/-- C5 counterexample: in `rlOne` one client is registered and
`activeClients = 1`. `RateLimiter::reset` zeroes the request counters but
does not touch `activeClients`, so `getStatistics` immediately after
`reset` does not yield all-zero counters: the claim fails at this state. -/
theorem reset_activeClients_cex :
    ¬ ((rlOne.reset 1).getStatistics.activeClients = 0) := by decide

/-- C5 as amended: `reset` resets every registered cell (full tokens,
zero counters), zeroes the aggregator's request counters and the total
latency and clears the latency samples, changes neither the registry
membership nor the configuration (hence not the override table), and
leaves `activeClients` unchanged; immediately afterwards `getStatistics`
yields zero total/accepted/rejected counters and `getLatencyPercentiles`
yields all-zero percentiles. -/
theorem reset_spec (rl : RateLimiter) (now : ℚ) :
    (rl.reset now).getStatistics.totalRequests = 0 ∧
    (rl.reset now).getStatistics.acceptedRequests = 0 ∧
    (rl.reset now).getStatistics.rejectedRequests = 0 ∧
    (rl.reset now).getStatistics.totalLatency = 0 ∧
    (rl.reset now).getStatistics.activeClients = rl.getStatistics.activeClients ∧
    (rl.reset now).latencyMeasurements = [] ∧
    (rl.reset now).getLatencyPercentiles = [0, 0, 0, 0, 0] ∧
    (rl.reset now).clients.map Prod.fst = rl.clients.map Prod.fst ∧
    (rl.reset now).config = rl.config ∧
    (∀ p ∈ (rl.reset now).clients,
      p.2.tokens = (p.2.bucketSize : ℚ) ∧ p.2.totalRequests = 0 ∧
      p.2.acceptedRequests = 0 ∧ p.2.lastRefill = now) := by
  refine ⟨rfl, rfl, rfl, rfl, rfl, rfl, rfl, ?_, rfl, ?_⟩
  · simp [RateLimiter.reset, List.map_map]
  · intro p hp
    simp only [RateLimiter.reset, List.mem_map] at hp
    obtain ⟨q, _, rfl⟩ := hp
    simp [TokenBucket.reset]

/-- Witness for C5 (amended) on `rlOne`: the single registered cell is
refilled and zeroed, and the request counter reads zero. -/
theorem reset_spec_witness :
    (rlOne.reset 1).getStatistics.totalRequests = 0 ∧
    (∀ p ∈ (rlOne.reset 1).clients,
      p.2.tokens = (p.2.bucketSize : ℚ) ∧ p.2.totalRequests = 0 ∧
      p.2.acceptedRequests = 0 ∧ p.2.lastRefill = 1) := by
  have h := reset_spec rlOne 1
  exact ⟨h.1, h.2.2.2.2.2.2.2.2.2⟩

/-- Rank bound for the nearest-rank percentile estimator: for a percentile
between 0 and 100 and a non-empty buffer, the computed rank is in range. -/
theorem rankOf_lt (p : ℚ) (n : ℕ) (_hp0 : 0 ≤ p) (hp1 : p ≤ 100) (hn : 1 ≤ n) :
    RateLimiter.rankOf p n < n := by
  unfold RateLimiter.rankOf
  have hn' : (1 : ℚ) ≤ (n : ℚ) := by exact_mod_cast hn
  have hd : p / 100 ≤ 1 := by
    rw [div_le_one (by norm_num : (0 : ℚ) < 100)]
    exact hp1
  have hx1 : (p / 100) * ((n : ℚ) - 1) ≤ (n : ℚ) - 1 :=
    mul_le_of_le_one_left (by linarith) hd
  have hq : ((p / 100) * ((n : ℚ) - 1)).floor = ⌊(p / 100) * ((n : ℚ) - 1)⌋ := by
    rw [Rat.floor_def', Rat.floor_def]
  have hfl : ((p / 100) * ((n : ℚ) - 1)).floor ≤ (n : ℤ) - 1 := by
    have h3 : ((⌊(p / 100) * ((n : ℚ) - 1)⌋ : ℤ) : ℚ) ≤ (n : ℚ) - 1 :=
      le_trans (Int.floor_le _) hx1
    rw [hq]
    exact_mod_cast h3
  have h2 := Int.toNat_le_toNat hfl
  omega

/-- C6: on an empty sample buffer `getLatencyPercentiles` is
`[0, 0, 0, 0, 0]`; on a non-empty buffer of `count` samples the five
returned values are the elements of the ascending-sorted buffer at ranks
`⌊(p/100)·(count−1)⌋` for `p ∈ {50, 90, 95, 99, 99.9}` (any sorted
permutation of the buffer — it is unique — gives them), the rank is in
range, and the buffer is read only: the function is a pure query of the
state. -/
theorem getLatencyPercentiles_spec (rl : RateLimiter) :
    (rl.latencyMeasurements = [] → rl.getLatencyPercentiles = [0, 0, 0, 0, 0]) ∧
    (∀ ys, rl.latencyMeasurements ≠ [] → List.Perm ys rl.latencyMeasurements →
      ys.Sorted (· ≤ ·) →
      RateLimiter.rankOf (999 / 10) rl.latencyMeasurements.length <
        rl.latencyMeasurements.length ∧
      rl.getLatencyPercentiles =
        [ys.getD (RateLimiter.rankOf 50 rl.latencyMeasurements.length) 0,
         ys.getD (RateLimiter.rankOf 90 rl.latencyMeasurements.length) 0,
         ys.getD (RateLimiter.rankOf 95 rl.latencyMeasurements.length) 0,
         ys.getD (RateLimiter.rankOf 99 rl.latencyMeasurements.length) 0,
         ys.getD (RateLimiter.rankOf (999 / 10) rl.latencyMeasurements.length) 0]) := by
  constructor
  · intro h
    unfold RateLimiter.getLatencyPercentiles
    simp [h]
  · intro ys hne hperm hsort
    have hlen : 1 ≤ rl.latencyMeasurements.length := List.length_pos.mpr hne
    refine ⟨rankOf_lt _ _ (by norm_num) (by norm_num) hlen, ?_⟩
    have hys : ys = rl.latencyMeasurements.insertionSort (· ≤ ·) :=
      List.eq_of_perm_of_sorted (hperm.trans (List.perm_insertionSort _ _).symm)
        hsort (List.sorted_insertionSort _ _)
    subst hys
    unfold RateLimiter.getLatencyPercentiles
    simp [List.isEmpty_iff, hne]

/-- A limiter holding the latency samples `[3, 1, 2]`. -/
def rlLat : RateLimiter :=
  { mkRateLimiter testConfig with latencyMeasurements := [3, 1, 2] }

/-- Witness for C6 on the buffer `[3, 1, 2]`: its sorted permutation is
`[1, 2, 3]` and every one of the five ranks picks index 1 or above, here
all resolving to the value 2. -/
theorem getLatencyPercentiles_spec_witness :
    rlLat.getLatencyPercentiles =
      [([1, 2, 3] : List ℚ).getD (RateLimiter.rankOf 50 3) 0,
       ([1, 2, 3] : List ℚ).getD (RateLimiter.rankOf 90 3) 0,
       ([1, 2, 3] : List ℚ).getD (RateLimiter.rankOf 95 3) 0,
       ([1, 2, 3] : List ℚ).getD (RateLimiter.rankOf 99 3) 0,
       ([1, 2, 3] : List ℚ).getD (RateLimiter.rankOf (999 / 10) 3) 0] ∧
    rlLat.getLatencyPercentiles = [2, 2, 2, 2, 2] := by
  have h := (getLatencyPercentiles_spec rlLat).2 [1, 2, 3]
    (by decide) (by decide) (by decide)
  exact ⟨h.2, by decide⟩

/-- An invalid configuration: zero default capacity, negative default
refill rate, and an override with zero capacity and negative rate. -/
def cfgInvalid : RateLimiterConfig :=
  { defaultBucketSize := 0
    defaultRefillRate := -1
    cleanupInterval := 300
    enableMetrics := true
    enableLogging := false
    maxClients := 10
    timeoutMs := 1
    clientLimits := [("a", (0, -2))] }

/-- C7 (failing input): the constructor performs no configuration
validation — it stores the invalid configuration verbatim and serves
requests from it (for client `a` a zero-capacity bucket is silently
created and every request is rejected), instead of rejecting the
configuration at construction time as the claim requires. -/
theorem construction_accepts_invalid_config :
    (mkRateLimiter cfgInvalid).config = cfgInvalid ∧
    cfgInvalid.defaultBucketSize = 0 ∧
    cfgInvalid.defaultRefillRate = -1 ∧
    lookupKey "a" cfgInvalid.clientLimits = some (0, -2) ∧
    ((mkRateLimiter cfgInvalid).allowRequest "a" 0 1).1 = false ∧
    lookupKey "a" ((mkRateLimiter cfgInvalid).allowRequest "a" 0 1).2.clients =
      some { tokens := 0, bucketSize := 0, refillRate := -2, lastRefill := 0,
             totalRequests := 1, acceptedRequests := 0 } := by
  refine ⟨rfl, rfl, rfl, by decide, by decide, by decide⟩

/-- C8: `getClientStatistics` never fails: for an unknown client it
returns the default view — zero tokens remaining, zero counters, and the
process-default capacity and refill rate — leaving the state unchanged;
for a registered client it returns that cell's snapshot. -/
theorem getClientStatistics_spec (rl : RateLimiter) (cid : String) (now : ℚ) :
    (lookupKey cid rl.clients = none →
      (rl.getClientStatistics cid now).1 =
        { tokensRemaining := 0
          bucketSize := rl.config.defaultBucketSize
          refillRate := rl.config.defaultRefillRate
          totalRequests := 0
          acceptedRequests := 0
          lastRefill := now } ∧
      (rl.getClientStatistics cid now).2 = rl) ∧
    (∀ b, lookupKey cid rl.clients = some b →
      (rl.getClientStatistics cid now).1 = (b.getStatistics now).1) := by
  constructor
  · intro hnone
    unfold RateLimiter.getClientStatistics
    rw [hnone]
    exact ⟨rfl, rfl⟩
  · intro b hb
    unfold RateLimiter.getClientStatistics
    rw [hb]

/-- Witness for C8: the unknown client `x` gets the zero/default view on a
fresh limiter, and the registered client `a` of `rlOne` gets its cell's
snapshot. -/
theorem getClientStatistics_spec_witness :
    ((mkRateLimiter testConfig).getClientStatistics "x" 0).1 =
      { tokensRemaining := 0, bucketSize := 3, refillRate := 0,
        totalRequests := 0, acceptedRequests := 0, lastRefill := 0 } ∧
    (rlOne.getClientStatistics "a" 1).1 =
      (TokenBucket.getStatistics
        { tokens := 2, bucketSize := 3, refillRate := 0, lastRefill := 0,
          totalRequests := 1, acceptedRequests := 1 } 1).1 :=
  ⟨((getClientStatistics_spec (mkRateLimiter testConfig) "x" 0).1 (by decide)).1,
   (getClientStatistics_spec rlOne "a" 1).2
     { tokens := 2, bucketSize := 3, refillRate := 0, lastRefill := 0,
       totalRequests := 1, acceptedRequests := 1 } (by decide)⟩

/-! ### Association-list lemmas for C9 and C10 -/

theorem lookupKey_eraseKey (cid : String) (l : List (String × α)) :
    lookupKey cid (eraseKey cid l) = none := by
  induction l with
  | nil => rfl
  | cons hd tl ih =>
    obtain ⟨k, v⟩ := hd
    unfold eraseKey
    by_cases h : k = cid
    · simpa [h] using ih
    · simpa [lookupKey, h] using ih

theorem eraseKey_of_not_mem (cid : String) (l : List (String × α))
    (h : cid ∉ l.map Prod.fst) : eraseKey cid l = l := by
  induction l with
  | nil => rfl
  | cons hd tl ih =>
    obtain ⟨k, v⟩ := hd
    simp only [List.map_cons, List.mem_cons, not_or] at h
    unfold eraseKey
    rw [if_neg (fun hk => h.1 hk.symm), ih h.2]

theorem length_eraseKey_of_lookup (cid : String) (l : List (String × α)) (b : α)
    (hnd : (l.map Prod.fst).Nodup) (hb : lookupKey cid l = some b) :
    (eraseKey cid l).length + 1 = l.length := by
  induction l with
  | nil => simp [lookupKey] at hb
  | cons hd tl ih =>
    obtain ⟨k, v⟩ := hd
    simp only [List.map_cons, List.nodup_cons] at hnd
    unfold eraseKey
    by_cases h : k = cid
    · rw [if_pos h, eraseKey_of_not_mem cid tl (h ▸ hnd.1)]
      simp
    · rw [if_neg h]
      simp only [lookupKey, if_neg h] at hb
      simpa using ih hnd.2 hb

theorem lookupKey_setKey_self (cid : String) (v : α) (l : List (String × α)) :
    lookupKey cid (setKey cid v l) = some v := by
  induction l with
  | nil => simp [setKey, lookupKey]
  | cons hd tl ih =>
    obtain ⟨k, w⟩ := hd
    unfold setKey
    by_cases h : k = cid
    · simp [h, lookupKey]
    · simpa [lookupKey, h] using ih

/-- C9 counterexample: with `maxClients = 1` and the registry full with
client `a`, `updateClientLimit` for the brand-new client `b` stores the
override, but the next `getOrCreateBucket` for `b` signals
`CapacityExceeded` (`none`) instead of constructing a fresh cell: the
claim's consequence fails for a new client on a full registry. -/
theorem updateClientLimit_cex :
    lookupKey "b" ((rlOne.updateClientLimit "b" 5 2).getOrCreateBucket "b" 1).2.clients
      = none ∧
    ((rlOne.updateClientLimit "b" 5 2).getOrCreateBucket "b" 1).1 = none := by
  exact ⟨by decide, by decide⟩

/-- C9 as amended: `updateClientLimit` stores the override and erases any
existing cell for the id; provided the registry is then below
`maxClients` — which is always the case when the id had a cell, given the
size invariant — the next `getOrCreateBucket` for the id constructs a
fresh cell with the new capacity and rate, full tokens and zero counters
(for a new id on a full registry it signals `CapacityExceeded` instead,
as the counterexample shows). -/
theorem updateClientLimit_spec (rl : RateLimiter) (cid : String) (cap : ℕ)
    (rate now : ℚ)
    (hlen : (rl.updateClientLimit cid cap rate).clients.length < rl.config.maxClients) :
    lookupKey cid (rl.updateClientLimit cid cap rate).config.clientLimits = some (cap, rate) ∧
    lookupKey cid (rl.updateClientLimit cid cap rate).clients = none ∧
    ((rl.updateClientLimit cid cap rate).getOrCreateBucket cid now).1 =
      some (mkTokenBucket cap rate now) ∧
    lookupKey cid ((rl.updateClientLimit cid cap rate).getOrCreateBucket cid now).2.clients =
      some (mkTokenBucket cap rate now) ∧
    (mkTokenBucket cap rate now).tokens = (cap : ℚ) ∧
    (mkTokenBucket cap rate now).totalRequests = 0 ∧
    (mkTokenBucket cap rate now).acceptedRequests = 0 := by
  have hover : lookupKey cid (rl.updateClientLimit cid cap rate).config.clientLimits
      = some (cap, rate) := lookupKey_setKey_self cid (cap, rate) rl.config.clientLimits
  have hnone : lookupKey cid (rl.updateClientLimit cid cap rate).clients = none :=
    lookupKey_eraseKey cid rl.clients
  have hmax : ¬ ((rl.updateClientLimit cid cap rate).config.maxClients ≤
      (rl.updateClientLimit cid cap rate).clients.length) := not_le.mpr hlen
  refine ⟨hover, hnone, ?_, ?_, rfl, rfl, rfl⟩
  · unfold RateLimiter.getOrCreateBucket
    rw [hnone]
    dsimp only
    rw [if_neg hmax, hover]
  · unfold RateLimiter.getOrCreateBucket
    rw [hnone]
    dsimp only
    rw [if_neg hmax, hover]
    simp [lookupKey]

/-- Witness for C9 (amended) on an empty registry with `maxClients = 1`:
after an override for client `c`, the next `getOrCreateBucket` yields the
fresh cell with the new parameters. -/
theorem updateClientLimit_spec_witness :
    (((mkRateLimiter testConfig).updateClientLimit "c" 5 2).getOrCreateBucket "c" 1).1 =
      some (mkTokenBucket 5 2 1) ∧
    (mkTokenBucket 5 2 1).tokens = (5 : ℚ) :=
  ⟨(updateClientLimit_spec (mkRateLimiter testConfig) "c" 5 2 1 (by decide)).2.2.1,
   (updateClientLimit_spec (mkRateLimiter testConfig) "c" 5 2 1 (by decide)).2.2.2.2.1⟩

/-- C10: `updateClientLimit` erases a registered cell without decrementing
`activeClients` — unlike `removeClient`, which decrements per removal —
so after `updateClientLimit` on a registered client followed by a new
request for the same client the counter exceeds the registry's entry
count by one: the invariant `activeClients = registry size` is not
preserved by every operation. -/
theorem updateClientLimit_activeClients_drift (rl : RateLimiter) (cid : String)
    (b : TokenBucket) (cap : ℕ) (rate now : ℚ)
    (hb : lookupKey cid rl.clients = some b)
    (hnd : (rl.clients.map Prod.fst).Nodup)
    (hact : rl.statsActiveClients = rl.clients.length)
    (hmax : rl.clients.length ≤ rl.config.maxClients) :
    ((rl.updateClientLimit cid cap rate).getOrCreateBucket cid now).2.statsActiveClients =
      ((rl.updateClientLimit cid cap rate).getOrCreateBucket cid now).2.clients.length + 1 ∧
    (rl.removeClient cid).statsActiveClients + 1 = rl.statsActiveClients ∧
    (rl.removeClient cid).clients.length + 1 = rl.clients.length := by
  have herase := length_eraseKey_of_lookup cid rl.clients b hnd hb
  have hnone : lookupKey cid (rl.updateClientLimit cid cap rate).clients = none :=
    lookupKey_eraseKey cid rl.clients
  have hlen : (rl.updateClientLimit cid cap rate).clients.length < rl.config.maxClients := by
    have : (eraseKey cid rl.clients).length + 1 ≤ rl.config.maxClients := herase ▸ hmax
    simpa [RateLimiter.updateClientLimit] using this
  have hmax' : ¬ ((rl.updateClientLimit cid cap rate).config.maxClients ≤
      (rl.updateClientLimit cid cap rate).clients.length) := not_le.mpr hlen
  refine ⟨?_, ?_, ?_⟩
  · unfold RateLimiter.getOrCreateBucket
    rw [hnone]
    dsimp only
    rw [if_neg hmax']
    simp only [RateLimiter.updateClientLimit, List.length_cons]
    omega
  · unfold RateLimiter.removeClient
    rw [hb]
    dsimp only
    have hpos : 1 ≤ rl.statsActiveClients := by
      rw [hact]
      omega
    omega
  · unfold RateLimiter.removeClient
    rw [hb]
    dsimp only
    exact herase

/-- Witness for C10 on `rlOne`: after `updateClientLimit` on the
registered client `a` and a fresh request for `a`, the counter reads 2
while the registry holds a single entry. -/
theorem updateClientLimit_activeClients_drift_witness :
    ((rlOne.updateClientLimit "a" 5 2).getOrCreateBucket "a" 1).2.statsActiveClients =
      ((rlOne.updateClientLimit "a" 5 2).getOrCreateBucket "a" 1).2.clients.length + 1 ∧
    ((rlOne.updateClientLimit "a" 5 2).getOrCreateBucket "a" 1).2.statsActiveClients = 2 :=
  ⟨(updateClientLimit_activeClients_drift rlOne "a"
      { tokens := 2, bucketSize := 3, refillRate := 0, lastRefill := 0,
        totalRequests := 1, acceptedRequests := 1 } 5 2 1
      (by decide) (by decide) (by decide) (by decide)).1,
   by decide⟩

end RateLimiterModel
